import Mathlib

/- Shallow embedding of src/bot.py (Telegram media bridge): the media-type
   classifier, the download progress accounting, the transfer pipeline with
   its on-disk staging effects, the Bot API upload request, the login
   text-message handler, and the t.me link regex of text_message_handler. -/

namespace SaveBot

/-! Character classes. The regex at src/bot.py:586 is
`https?://t\.me/((?:c/)?(\d+|[A-Za-z0_9_]+)/(\d+))`; its classes are modelled
over ASCII code points (all inputs of interest are ASCII). -/

/-- ASCII digit, the class matched by the `\d` escapes of the link regex. -/
def isDigC (c : Char) : Bool := decide (48 ≤ c.toNat ∧ c.toNat ≤ 57)

/-- ASCII letter `A`-`Z` or `a`-`z`. -/
def isAlphaC (c : Char) : Bool :=
  decide ((65 ≤ c.toNat ∧ c.toNat ≤ 90) ∨ (97 ≤ c.toNat ∧ c.toNat ≤ 122))

/-- The username character class `[A-Za-z0_9_]` of the link regex: letters,
the digit `0`, the digit `9` and the underscore — digits 1-8 are not in it. -/
def isClassChar (c : Char) : Bool :=
  isAlphaC c || decide (c.toNat = 48 ∨ c.toNat = 57 ∨ c.toNat = 95)

/-- Characters that may appear in a public-channel username (letter, any
digit, underscore); used to describe inputs of the link parser. -/
def isUserChar (c : Char) : Bool := isAlphaC c || isDigC c || decide (c.toNat = 95)

/-- One of the digits `1`-`8` (code points 49-56). -/
def isDigit18 (c : Char) : Bool := decide (49 ≤ c.toNat ∧ c.toNat ≤ 56)

/-! The media classifier `TeleHelper.detect_media_type_and_name`
(src/bot.py:146-201). A message's media is either photo-like (an object with
a `photo` attribute), document-like (an object with a `document` attribute,
whose value may itself be absent), or something else; a document carries an
optional MIME type and a list of attributes. -/

/-- One attribute of a Telethon document: `DocumentAttributeVideo`,
`DocumentAttributeFilename` (with its `file_name` string), or any other
attribute class (ignored by the classifier). -/
inductive DocAttr
  | videoAttr
  | filenameAttr (name : String)
  | otherAttr
deriving DecidableEq

/-- A Telethon `Document` as read by the classifier: its `mime_type`
(`none` models both an absent attribute and `None`) and its attributes. -/
structure TDocument where
  mime_type : Option String
  attributes : List DocAttr
deriving DecidableEq

/-- The shapes of `msg.media` the classifier distinguishes: media carrying a
`photo` attribute (with its truthiness), media carrying a `document`
attribute (possibly `None`), or media with neither attribute. -/
inductive MsgMedia
  | photoM (truthy : Bool)
  | docM (doc : Option TDocument)
  | otherM
deriving DecidableEq

/-- Python `str.lower` on the characters of a filename. -/
def lowerL (l : List Char) : List Char := l.map Char.toLower

/-- Python `str.endswith` against a tuple of suffixes. -/
def endsAny (l : List Char) (sufs : List (List Char)) : Bool :=
  sufs.any (fun s => s.isSuffixOf l)

/-- The photo extensions of the filename heuristic (src/bot.py:187). -/
def photoExts : List (List Char) :=
  [".jpg".toList, ".jpeg".toList, ".png".toList, ".webp".toList]

/-- The video extensions of the filename heuristic (src/bot.py:189). -/
def videoExts : List (List Char) :=
  [".mp4".toList, ".avi".toList, ".mov".toList, ".mkv".toList]

/-- The audio extensions of the filename heuristic (src/bot.py:191). -/
def audioExts : List (List Char) :=
  [".mp3".toList, ".wav".toList, ".ogg".toList]

/-- Media kind inferred from a (lowercased) filename by the extension
heuristic, or `none` when no listed extension matches. -/
def extKind (nameLower : List Char) : Option String :=
  if endsAny nameLower photoExts then some "photo"
  else if endsAny nameLower videoExts then some "video"
  else if endsAny nameLower audioExts then some "audio"
  else none

/-- One step of the attribute loop at src/bot.py:180-192 over the running
state `(media_type, file_name, file_extension)`: a video attribute forces
kind `video` (and extension `.mp4`); a filename attribute records the name
and re-derives the kind from its extension when recognised; other
attributes change nothing. -/
def attrStep (st : String × String × String) (a : DocAttr) : String × String × String :=
  match a with
  | .videoAttr => ("video", st.2.1, ".mp4")
  | .filenameAttr name =>
      match extKind (lowerL name.toList) with
      | some k => (k, name, st.2.2)
      | none => (st.1, name, st.2.2)
  | .otherAttr => st

/-- The MIME-type check at src/bot.py:166-176 over the same running state:
with a truthy `mime_type`, an `image/`, `video/` or `audio/` prefix picks
the kind and a canonical extension; otherwise the defaults stand. -/
def mimeState (mime : Option String) : String × String × String :=
  match mime with
  | some mt =>
    if mt = "" then ("document", "file.bin", "")
    else if mt.startsWith "image/" then ("photo", "file.bin", ".jpg")
    else if mt.startsWith "video/" then ("video", "file.bin", ".mp4")
    else if mt.startsWith "audio/" then ("audio", "file.bin", ".mp3")
    else ("document", "file.bin", "")
  | none => ("document", "file.bin", "")

/-- The whole document branch of the classifier (src/bot.py:162-192): the
MIME check followed by the attribute loop. -/
def docFold (doc : TDocument) : String × String × String :=
  doc.attributes.foldl attrStep (mimeState doc.mime_type)

/-- `TeleHelper.detect_media_type_and_name` (src/bot.py:146-201): decide the
media kind and display filename of a message's media. Photo media yields
`photo`/`.jpg`; document media first consults the (truthy) MIME type, then
folds the attribute loop over the document's attributes; finally, when the
name is still the default `file.bin` and an extension was inferred, the name
becomes `file<ext>`. -/
def detect_media_type_and_name (m : Option MsgMedia) : String × String :=
  match m with
  | none => ("document", "file.bin")
  | some mm =>
    let st :=
      match mm with
      | .photoM t => if t then ("photo", "file.bin", ".jpg") else ("document", "file.bin", "")
      | .otherM => ("document", "file.bin", "")
      | .docM none => ("document", "file.bin", "")
      | .docM (some doc) => docFold doc
    (st.1, if st.2.1 = "file.bin" ∧ st.2.2 ≠ "" then "file" ++ st.2.2 else st.2.1)

/-- The four media kinds the source ever assigns. -/
def kindOk (k : String) : Prop :=
  k = "photo" ∨ k = "video" ∨ k = "audio" ∨ k = "document"

/-- The file extensions the source ever assigns (including none). -/
def extOk (e : String) : Prop :=
  e = "" ∨ e = ".jpg" ∨ e = ".mp4" ∨ e = ".mp3"

/-- The document attributes carried by a media value (empty for non-document
media). -/
def mediaAttrs (m : Option MsgMedia) : List DocAttr :=
  match m with
  | some (.docM (some doc)) => doc.attributes
  | _ => []

/-! Progress accounting: the `progress_callback` closure inside
`fetch_message_and_download` (src/bot.py:269-299). Arithmetic is modelled
over the rationals; the string `"Calculating..."` stored when no ETA can be
derived is modelled as `none`. -/

/-- One recomputed progress snapshot: instantaneous speed, optional ETA in
seconds (`none` is the unknown marker), and percentage. -/
structure ProgressSnapshot where
  speed : ℚ
  eta : Option ℚ
  percent : ℚ
deriving DecidableEq

/-- The body of `progress_callback` (src/bot.py:269-299): speed is
`downloaded / elapsed` when `elapsed > 0` else `0`; the ETA is
`(total - downloaded) / speed` when `speed > 0` and `total > downloaded`,
else unknown; the percentage is `downloaded / total * 100` when
`total > 0` else `0`. -/
def progress_callback (downloaded total elapsed : ℚ) : ProgressSnapshot :=
  let speed := if 0 < elapsed then downloaded / elapsed else 0
  let eta := if 0 < speed ∧ downloaded < total then some ((total - downloaded) / speed) else none
  let percent := if 0 < total then downloaded / total * 100 else 0
  ⟨speed, eta, percent⟩

/-- Modelled from the spec (section 4.1 RateTracker): throughput is
`bytesDone / elapsedSeconds` if `elapsedSeconds > 0`, else 0. -/
def specThroughput (bytesDone elapsedSeconds : ℚ) : ℚ :=
  if 0 < elapsedSeconds then bytesDone / elapsedSeconds else 0

/-- Modelled from the spec (section 4.1 RateTracker): percentComplete is
`100 * bytesDone / bytesTotal` if `bytesTotal > 0`, else 0. -/
def specPercent (bytesDone bytesTotal : ℚ) : ℚ :=
  if 0 < bytesTotal then 100 * bytesDone / bytesTotal else 0

/-- Modelled from the spec (section 4.1 RateTracker): etaSeconds is
`(bytesTotal - bytesDone) / throughput` if the throughput is positive and
`bytesTotal > bytesDone`, else the unknown marker. -/
def specEta (bytesDone bytesTotal elapsedSeconds : ℚ) : Option ℚ :=
  if 0 < specThroughput bytesDone elapsedSeconds ∧ bytesDone < bytesTotal then
    some ((bytesTotal - bytesDone) / specThroughput bytesDone elapsedSeconds)
  else none

/-! The transfer pipeline `fetch_message_and_download` (src/bot.py:232-351)
and the tail of `text_message_handler` (src/bot.py:612-668). The on-disk
state is the set of staged paths, as a list; `tempfile.NamedTemporaryFile`
is modelled by an externally supplied fresh path. Network effects are
oracles: the fetched message, the download outcome, the upload outcome. -/

/-- The set of paths currently existing on disk. -/
abbrev FS := List String

/-- The configured size ceiling `MAX_FILE_SIZE` (src/bot.py:36): 2 GB. -/
def MAX_FILE_SIZE : Nat := 2 * 1024 * 1024 * 1024

/-- A fetched message: its media (if any) and its text. -/
structure TMsg where
  media : Option MsgMedia
  text : String
deriving DecidableEq

/-- Outcome of `client.download_media` (src/bot.py:311-315): it returned a
path to an existing file of the given size, or returned no usable path
(`Download failed - file not found`), or raised. -/
inductive DownloadOutcome
  | success (size : Nat)
  | missing
  | exc (e : String)
deriving DecidableEq

/-- The error cases of the fetch-and-download step, tagging the branch that
produced the `{"ok": False}` dictionary. -/
inductive FetchErr
  | notFound
  | tooLarge (size : Nat)
  | downloadMissing
  | downloadExc (e : String)
deriving DecidableEq

/-- Result of `fetch_message_and_download`: an error, a text-only message,
or a staged media file with its metadata. -/
inductive FetchRes
  | err (e : FetchErr)
  | textOnly (text : String)
  | mediaFile (file_path : String) (file_size : Nat) (file_name : String)
      (media_type : String) (text : String)
deriving DecidableEq

/-- `TeleHelper.fetch_message_and_download` (src/bot.py:232-351) acting on
the staging filesystem. The temp file is created once media is detected
(src/bot.py:254); on a completed download a size larger than
`MAX_FILE_SIZE` deletes the staged file and fails (src/bot.py:329-331);
the download-exception and missing-file returns leave the staged file in
place, exactly as the source does. -/
def fetch_message_and_download (fs : FS) (msg : Option TMsg) (tempPath : String)
    (dl : DownloadOutcome) : FetchRes × FS :=
  match msg with
  | none => (.err .notFound, fs)
  | some m =>
    match m.media with
    | none => (.textOnly m.text, fs)
    | some mm =>
      let tn := detect_media_type_and_name (some mm)
      let fs1 := tempPath :: fs
      match dl with
      | .exc e => (.err (.downloadExc e), fs1)
      | .missing => (.err .downloadMissing, fs1)
      | .success size =>
          if size > MAX_FILE_SIZE then (.err (.tooLarge size), fs1.erase tempPath)
          else (.mediaFile tempPath size tn.2 tn.1 m.text, fs1)

/-- Outcome of the `requests.post` call in `upload_to_telegram_bot`
(src/bot.py:402): HTTP 200, an HTTP error with a description, or a raised
exception. -/
inductive UploadOutcome
  | okResp
  | httpErr (desc : String)
  | exc (e : String)
deriving DecidableEq

/-- The outgoing Bot API request assembled by `upload_to_telegram_bot`
(src/bot.py:371-391): the caption field is the caption sliced to its first
1024 characters when the caption is non-empty (src/bot.py:375-376), absent
otherwise; the file is attached under the field named after the media type,
with `supports_streaming` set for video. -/
structure BotRequest where
  caption : Option (List Char)
  field : String
  supports_streaming : Bool
deriving DecidableEq

/-- Build the data/file fields of the upload request from the caption
characters and the media type (src/bot.py:371-391). -/
def upload_request (caption : List Char) (media_type : String) : BotRequest :=
  { caption := if caption ≠ [] then some (caption.take 1024) else none
    field :=
      if media_type = "photo" then "photo"
      else if media_type = "video" then "video"
      else if media_type = "audio" then "audio"
      else "document"
    supports_streaming := media_type = "video" }

/-- The transfer tail of `text_message_handler` (src/bot.py:612-668) acting
on the staging filesystem: run the fetch-and-download step, return early on
its errors and on text-only messages, otherwise upload (the upload outcome
never touches the staging path) and then delete the staged file when it
still exists (src/bot.py:666-668). -/
def text_message_handler_transfer (fs : FS) (msg : Option TMsg) (tempPath : String)
    (dl : DownloadOutcome) (ul : UploadOutcome) : FS :=
  let r := fetch_message_and_download fs msg tempPath dl
  match r.1 with
  | .mediaFile path _ _ _ _ => if path ∈ r.2 then r.2.erase path else r.2
  | _ => r.2

/-! The login flow of `text_message_handler` (src/bot.py:529-571), driven by
the `STATE` dictionary. -/

/-- The value of `STATE['awaiting']` when an auth input is expected. -/
inductive Awaiting
  | phoneA
  | codeA
  | passwordA
deriving DecidableEq

/-- The auth-relevant fields of the global `STATE` dictionary
(src/bot.py:65-72). -/
structure BotState where
  phone : Option String
  sent_code : Option String
  awaiting : Option Awaiting
  logged_in : Bool
deriving DecidableEq

/-- Python truthiness of a stored optional string: `None` and the empty
string are falsy. -/
def strTruthy : Option String → Bool
  | none => false
  | some s => s != ""

/-- Outcome of `TeleHelper.sign_in_with_code` (src/bot.py:116-127): the
tuple `("ok", me)`, the tuple `("password_needed", None)`, or a raised
exception. -/
inductive SignInResult
  | okSig
  | password_needed
  | excSig (e : String)
deriving DecidableEq

/-- The reply sent by the code branch of `text_message_handler`. -/
inductive CodeReply
  | noPending
  | loginDone
  | needPassword
  | loginFailed (e : String)
deriving DecidableEq

/-- The `STATE.get('awaiting') == 'code'` branch of `text_message_handler`
(src/bot.py:540-561): with no truthy pending phone or code hash it clears
`awaiting` and reports the retry-login error; otherwise it signs in, and on
success sets `logged_in` and clears `awaiting`, on a needed password moves
`awaiting` to `password`, and on an exception leaves the state untouched
while reporting the failure. -/
def submit_code_step (s : BotState) (res : SignInResult) : BotState × CodeReply :=
  if strTruthy s.phone = false ∨ strTruthy s.sent_code = false then
    ({ s with awaiting := none }, .noPending)
  else
    match res with
    | .okSig => ({ s with logged_in := true, awaiting := none }, .loginDone)
    | .password_needed => ({ s with awaiting := some .passwordA }, .needPassword)
    | .excSig e => (s, .loginFailed e)

/-! The t.me link regex of `text_message_handler` (src/bot.py:586-599):
`re.search(r"https?://t\.me/((?:c/)?(\d+|[A-Za-z0_9_]+)/(\d+))", txt)`, then
group 3 becomes the message id, and group 2 becomes a numeric chat id by
prefixing "-100" when group 1 starts with "c/", otherwise an @-prefixed
username. The regex is embedded with its leftmost-match search and greedy
backtracking semantics, specialised to this one pattern. -/

/-- Consume an exact literal prefix, returning the remainder. -/
def dropPre : List Char → List Char → Option (List Char)
  | [], l => some l
  | _ :: _, [] => none
  | p :: ps, c :: cs => if c = p then dropPre ps cs else none

/-- First non-`none` element of a list of optional results (the order in
which a backtracking regex engine tries its candidates). -/
def firstSome {α : Type} : List (Option α) → Option α
  | [] => none
  | some a :: _ => some a
  | none :: t => firstSome t

/-- The candidate match lengths of a greedy `+` repetition, longest first:
`[n, n-1, ..., 1]`. -/
def descLens (n : Nat) : List Nat := (List.range n).map (fun i => n - i)

/-- Greedy `p+` with backtracking: try every non-empty run of `p`-characters
from the longest possible down, passing the matched run and the remainder to
the continuation. -/
def rep1 {α : Type} (p : Char → Bool) (l : List Char)
    (k : List Char → List Char → Option α) : Option α :=
  firstSome ((descLens (l.takeWhile p).length).map (fun j => k (l.take j) (l.drop j)))

/-- The part of the pattern after the alternation: a literal `/` followed by
the greedy final `\d+` (group 3); nothing follows it in the pattern, so the
maximal digit run wins. -/
def altCont (rest : List Char) : Option (List Char) :=
  match rest with
  | [] => none
  | c :: r2 =>
      if c = '/' then
        (if r2.takeWhile isDigC = [] then none else some (r2.takeWhile isDigC))
      else none

/-- Continuation pairing a matched alternation run (group 2) with the final
digit run (group 3). -/
def altK (cp rest : List Char) : Option (List Char × List Char) :=
  (altCont rest).map (fun mid => (cp, mid))

/-- The alternation `(\d+|[A-Za-z0_9_]+)` followed by `/(\d+)`: the digit
branch is preferred, the class branch is tried on its failure. -/
def matchAlt (l : List Char) : Option (List Char × List Char) :=
  match rep1 isDigC l altK with
  | some r => some r
  | none => rep1 isClassChar l altK

/-- The group-1 body without the optional `c/`: group 1 text, group 2,
group 3. -/
def matchNoC (l : List Char) : Option (List Char × List Char × List Char) :=
  (matchAlt l).map (fun r => (r.1 ++ '/' :: r.2, r.1, r.2))

/-- The full group-1 body `(?:c/)?(\d+|[A-Za-z0_9_]+)/(\d+)`: the optional
`c/` is consumed greedily and given up on failure of the rest. -/
def matchBody (l : List Char) : Option (List Char × List Char × List Char) :=
  match l with
  | c1 :: c2 :: r =>
      if c1 = 'c' ∧ c2 = '/' then
        match matchAlt r with
        | some (cp, mid) => some ('c' :: '/' :: (cp ++ '/' :: mid), cp, mid)
        | none => matchNoC (c1 :: c2 :: r)
      else matchNoC (c1 :: c2 :: r)
  | l2 => matchNoC l2

/-- Attempt the whole pattern at one position: the literal
`https?://t\.me/` (the optional `s` backtracks, vacuously since `s ≠ :`),
then the group-1 body. Returns (group 1, group 2, group 3). -/
def matchAt (l : List Char) : Option (List Char × List Char × List Char) :=
  match dropPre ['h', 't', 't', 'p'] l with
  | none => none
  | some l1 =>
    match dropPre ['s', ':', '/', '/', 't', '.', 'm', 'e', '/'] l1 with
    | some l2 => matchBody l2
    | none =>
      match dropPre [':', '/', '/', 't', '.', 'm', 'e', '/'] l1 with
      | some l2 => matchBody l2
      | none => none

/-- `re.search`: try the pattern at each position left to right, returning
the leftmost match. -/
def reSearch : List Char → Option (List Char × List Char × List Char)
  | [] => matchAt []
  | c :: t =>
    match matchAt (c :: t) with
    | some r => some r
    | none => reSearch t

/-- Value of a digit string, as computed by Python `int`. -/
def digitsToNat (l : List Char) : Nat := l.foldl (fun a c => 10 * a + (c.toNat - 48)) 0

/-- What the handler does with a parsed link: no regex match (the malformed
reply at src/bot.py:588), a `ValueError` raised by `int()` on a non-numeric
`c/` chat part, or a resolved chat reference (numeric id or @username) with
a message id. -/
inductive ParseOutcome
  | noMatch
  | valueError
  | parsed (from_chat : Int ⊕ List Char) (msg_id : Nat)
deriving DecidableEq

/-- The link-parsing step of `text_message_handler` (src/bot.py:586-599):
run the regex search; on a match take `msg_id = int(group 3)` and, when
group 1 starts with `c/`, `from_chat = int("-100" + group 2)` (prefixing the
fixed channel marker), otherwise the @-prefixed group 2. -/
def parseLink (txt : List Char) : ParseOutcome :=
  match reSearch txt with
  | none => .noMatch
  | some (fp, cp, mid) =>
    let msgId := digitsToNat mid
    if fp.take 2 = ['c', '/'] then
      if cp.all isDigC then
        .parsed (.inl (-(digitsToNat ('1' :: '0' :: '0' :: cp) : Int))) msgId
      else .valueError
    else
      .parsed (.inr (if cp.take 1 = ['@'] then cp else '@' :: cp)) msgId

/-! Helper lemmas about the classifier's attribute loop. -/

/-- The extension heuristic only ever announces the kinds photo, video and
audio. -/
theorem extKind_kindOk {l : List Char} {k : String} (h : extKind l = some k) : kindOk k := by
  unfold extKind at h
  split_ifs at h <;> simp_all [kindOk]

/-- One attribute step on a filename attribute: the recorded name becomes
that attribute's name, the extension is kept, and the kind is re-derived
from the extension heuristic when it recognises the name. -/
theorem attrStep_filename (st : String × String × String) (name : String) :
    (extKind (lowerL name.toList) = none ∧ attrStep st (.filenameAttr name) = (st.1, name, st.2.2))
      ∨ ∃ k, extKind (lowerL name.toList) = some k ∧
          attrStep st (.filenameAttr name) = (k, name, st.2.2) := by
  have hdef : attrStep st (.filenameAttr name) =
      (match extKind (lowerL name.toList) with
       | some k => (k, name, st.2.2)
       | none => (st.1, name, st.2.2)) := rfl
  cases hk : extKind (lowerL name.toList) with
  | none =>
    left
    exact ⟨rfl, by rw [hdef, hk]⟩
  | some k =>
    right
    exact ⟨k, rfl, by rw [hdef, hk]⟩

/-- Once the running kind is `video`, the attribute loop keeps it `video` as
long as every later filename attribute lacks a recognised non-video
extension. -/
theorem attrFold_video (post : List DocAttr) :
    ∀ st : String × String × String, st.1 = "video" →
    (∀ name, DocAttr.filenameAttr name ∈ post →
      extKind (lowerL name.toList) = none ∨ extKind (lowerL name.toList) = some "video") →
    (post.foldl attrStep st).1 = "video" := by
  induction post with
  | nil => intro st h _; simpa using h
  | cons a t ih =>
    intro st h hpost
    have hrest : ∀ name, DocAttr.filenameAttr name ∈ t →
        extKind (lowerL name.toList) = none ∨ extKind (lowerL name.toList) = some "video" :=
      fun n hn => hpost n (List.mem_cons_of_mem _ hn)
    cases a with
    | videoAttr => exact ih _ rfl hrest
    | filenameAttr name =>
      rw [List.foldl_cons]
      rcases attrStep_filename st name with ⟨hk, hstep⟩ | ⟨k, hk, hstep⟩
      · rw [hstep]
        exact ih _ h hrest
      · rcases hpost name (List.mem_cons_self _ _) with hk2 | hk2
        · rw [hk] at hk2; cases hk2
        · rw [hk, Option.some_inj] at hk2
          rw [hstep, hk2]
          exact ih _ rfl hrest
    | otherAttr => exact ih _ h hrest

/-- The attribute loop only ever assigns the four media kinds. -/
theorem attrFold_kindOk (l : List DocAttr) :
    ∀ st : String × String × String, kindOk st.1 → kindOk (l.foldl attrStep st).1 := by
  induction l with
  | nil => intro st h; simpa using h
  | cons a t ih =>
    intro st h
    cases a with
    | videoAttr => exact ih _ (Or.inr (Or.inl rfl))
    | filenameAttr name =>
      rw [List.foldl_cons]
      rcases attrStep_filename st name with ⟨hk, hstep⟩ | ⟨k, hk, hstep⟩
      · rw [hstep]; exact ih _ h
      · rw [hstep]; exact ih _ (extKind_kindOk hk)
    | otherAttr => exact ih _ h

/-- The running filename after the attribute loop is either the initial one
or the name of some filename attribute in the list. -/
theorem attrFold_name (l : List DocAttr) :
    ∀ st : String × String × String, (l.foldl attrStep st).2.1 = st.2.1 ∨
      ∃ name, DocAttr.filenameAttr name ∈ l ∧ (l.foldl attrStep st).2.1 = name := by
  induction l with
  | nil => intro st; left; rfl
  | cons a t ih =>
    intro st
    cases a with
    | videoAttr =>
      rcases ih (("video", st.2.1, ".mp4")) with h | ⟨name, hn, he⟩
      · left; exact h
      · right; exact ⟨name, List.mem_cons_of_mem _ hn, he⟩
    | filenameAttr name =>
      rw [List.foldl_cons]
      have hname : (attrStep st (.filenameAttr name)).2.1 = name := by
        rcases attrStep_filename st name with ⟨hk, hstep⟩ | ⟨k, hk, hstep⟩ <;> rw [hstep]
      rcases ih (attrStep st (.filenameAttr name)) with h | ⟨name2, hn2, he2⟩
      · right; exact ⟨name, List.mem_cons_self _ _, by rw [h, hname]⟩
      · right; exact ⟨name2, List.mem_cons_of_mem _ hn2, he2⟩
    | otherAttr =>
      rcases ih st with h | ⟨name, hn, he⟩
      · left; exact h
      · right; exact ⟨name, List.mem_cons_of_mem _ hn, he⟩

/-- The running extension after the attribute loop is the initial one or
`.mp4` (set by a video attribute); filename attributes never touch it. -/
theorem attrFold_ext (l : List DocAttr) :
    ∀ st : String × String × String,
      (l.foldl attrStep st).2.2 = st.2.2 ∨ (l.foldl attrStep st).2.2 = ".mp4" := by
  induction l with
  | nil => intro st; left; rfl
  | cons a t ih =>
    intro st
    cases a with
    | videoAttr =>
      rcases ih (("video", st.2.1, ".mp4")) with h | h
      · right; exact h
      · right; exact h
    | filenameAttr name =>
      rw [List.foldl_cons]
      have hext : (attrStep st (.filenameAttr name)).2.2 = st.2.2 := by
        rcases attrStep_filename st name with ⟨hk, hstep⟩ | ⟨k, hk, hstep⟩ <;> rw [hstep]
      rcases ih (attrStep st (.filenameAttr name)) with h | h
      · left; rw [h, hext]
      · right; exact h
    | otherAttr => exact ih st

/-- The state produced by the MIME check is one of the four kinds, keeps the
default filename, and carries one of the canonical extensions. -/
theorem mimeState_props (mime : Option String) :
    kindOk (mimeState mime).1 ∧ (mimeState mime).2.1 = "file.bin" ∧ extOk (mimeState mime).2.2 := by
  cases mime with
  | none => exact ⟨Or.inr (Or.inr (Or.inr rfl)), rfl, Or.inl rfl⟩
  | some mt =>
    have hdef : mimeState (some mt) =
        (if mt = "" then ("document", "file.bin", "")
         else if mt.startsWith "image/" then ("photo", "file.bin", ".jpg")
         else if mt.startsWith "video/" then ("video", "file.bin", ".mp4")
         else if mt.startsWith "audio/" then ("audio", "file.bin", ".mp3")
         else ("document", "file.bin", "")) := rfl
    rw [hdef]
    split_ifs <;> simp [kindOk, extOk]

/-- A `file<ext>` fallback name is never the empty string. -/
theorem file_append_ne (e : String) : ("file" ++ e) ≠ "" := by
  intro h
  have h2 := congrArg String.length h
  rw [String.length_append] at h2
  simp at h2
  exact absurd h2.1 (by decide)

/-- The document branch only ever assigns the four media kinds. -/
theorem docFold_kindOk (doc : TDocument) : kindOk (docFold doc).1 :=
  attrFold_kindOk doc.attributes (mimeState doc.mime_type) (mimeState_props doc.mime_type).1

/-- The document branch's filename is the default or stems from one of the
document's filename attributes. -/
theorem docFold_name (doc : TDocument) :
    (docFold doc).2.1 = "file.bin" ∨
      ∃ name, DocAttr.filenameAttr name ∈ doc.attributes ∧ (docFold doc).2.1 = name := by
  rcases attrFold_name doc.attributes (mimeState doc.mime_type) with h | ⟨name, hn, he⟩
  · left
    unfold docFold
    rw [h, (mimeState_props doc.mime_type).2.1]
  · right
    exact ⟨name, hn, he⟩

/-- The document branch's extension is one of the canonical ones. -/
theorem docFold_ext (doc : TDocument) : extOk (docFold doc).2.2 := by
  rcases attrFold_ext doc.attributes (mimeState doc.mime_type) with h | h
  · unfold docFold
    rw [h]
    exact (mimeState_props doc.mime_type).2.2
  · unfold docFold
    rw [h]
    exact Or.inr (Or.inr (Or.inl rfl))

/-- Projection of the classifier on document media: the kind. -/
theorem detect_doc_fst (doc : TDocument) :
    (detect_media_type_and_name (some (.docM (some doc)))).1 = (docFold doc).1 := rfl

/-- Projection of the classifier on document media: the filename, with its
`file<ext>` fallback. -/
theorem detect_doc_snd (doc : TDocument) :
    (detect_media_type_and_name (some (.docM (some doc)))).2 =
      (if (docFold doc).2.1 = "file.bin" ∧ (docFold doc).2.2 ≠ "" then
        "file" ++ (docFold doc).2.2
      else (docFold doc).2.1) := rfl

/-! Claim C2: classifier priority order. -/

/-- C2 (counterexample): the claim says an attachment carrying an explicit
video attribute is always classified `video`, regardless of filename
extension; but for a document whose attribute list is a video attribute
followed by a filename attribute `song.mp3`, the filename-extension
heuristic runs later in the loop and overrides the kind to `audio`. -/
theorem c2_counterexample :
    (detect_media_type_and_name (some (.docM (some ⟨none,
        [DocAttr.videoAttr, DocAttr.filenameAttr "song.mp3"]⟩)))).1 = "audio" ∧
      (detect_media_type_and_name (some (.docM (some ⟨none,
        [DocAttr.videoAttr, DocAttr.filenameAttr "song.mp3"]⟩)))).1 ≠ "video" := by
  decide

/-- C2 (amended): the classifier applies the MIME check first and then scans
the attributes in order, each video attribute and each recognised filename
extension overriding the current kind; consequently attribute-derived kinds
win over the MIME prefix and over the default, and an explicit video
attribute yields kind `video` whenever no filename attribute after it
carries a recognised non-video extension (this is sufficient, not
necessary: a still-later attribute can restore `video`). -/
theorem c2_amended (doc : TDocument) (pre post : List DocAttr)
    (hattrs : doc.attributes = pre ++ DocAttr.videoAttr :: post)
    (hpost : ∀ name, DocAttr.filenameAttr name ∈ post →
      extKind (lowerL name.toList) = none ∨ extKind (lowerL name.toList) = some "video") :
    (detect_media_type_and_name (some (.docM (some doc)))).1 = "video" := by
  rw [detect_doc_fst]
  unfold docFold
  rw [hattrs, List.foldl_append, List.foldl_cons]
  exact attrFold_video post _ rfl hpost

/-- C2 (amended, witness): a concrete document whose video attribute is
followed only by a non-filename attribute is classified `video`. -/
theorem c2_amended_witness :
    (detect_media_type_and_name (some (.docM (some ⟨none,
        [DocAttr.filenameAttr "x.mp3", DocAttr.videoAttr, DocAttr.otherAttr]⟩)))).1 = "video" :=
  c2_amended ⟨none, [DocAttr.filenameAttr "x.mp3", DocAttr.videoAttr, DocAttr.otherAttr]⟩
    [DocAttr.filenameAttr "x.mp3"] [DocAttr.otherAttr] rfl (by simp)

/-! Claim C9: totality and filename shape of the classifier. -/

/-- C9 (counterexample): the claim says the classifier always returns a
non-empty filename; but a document bearing a filename attribute whose name
is the empty string is returned with an empty filename (the `file.bin`
fallback test fails because the recorded name is `""`, not `file.bin`). -/
theorem c9_counterexample :
    (detect_media_type_and_name (some (.docM (some ⟨none,
        [DocAttr.filenameAttr ""]⟩)))).2 = "" ∧
      (detect_media_type_and_name (some (.docM (some ⟨none,
        [DocAttr.filenameAttr ""]⟩)))).1 = "document" := by
  decide

/-- C9 (amended): the classifier is total with a kind among
photo/video/audio/document; the filename is non-empty provided every
filename attribute of the media carries a non-empty name; absent media gives
the `("document", "file.bin")` default; and with no filename attribute at
all the filename is `file.bin` or a `file<ext>` fallback. -/
theorem c9_amended (m : Option MsgMedia) :
    kindOk (detect_media_type_and_name m).1 ∧
      ((∀ name, DocAttr.filenameAttr name ∈ mediaAttrs m → name ≠ "") →
        (detect_media_type_and_name m).2 ≠ "") ∧
      detect_media_type_and_name none = ("document", "file.bin") ∧
      ((∀ name, DocAttr.filenameAttr name ∉ mediaAttrs m) →
        (detect_media_type_and_name m).2 = "file.bin" ∨
          (detect_media_type_and_name m).2 ∈ (["file.jpg", "file.mp4", "file.mp3"] : List String)) := by
  match m with
  | none => exact ⟨by unfold kindOk; decide, fun _ => by decide, rfl, fun _ => by decide⟩
  | some (.photoM true) =>
    exact ⟨by unfold kindOk; decide, fun _ => by decide, rfl, fun _ => by decide⟩
  | some (.photoM false) =>
    exact ⟨by unfold kindOk; decide, fun _ => by decide, rfl, fun _ => by decide⟩
  | some .otherM => exact ⟨by unfold kindOk; decide, fun _ => by decide, rfl, fun _ => by decide⟩
  | some (.docM none) =>
    exact ⟨by unfold kindOk; decide, fun _ => by decide, rfl, fun _ => by decide⟩
  | some (.docM (some doc)) =>
    refine ⟨?_, ?_, rfl, ?_⟩
    · rw [detect_doc_fst]
      exact docFold_kindOk doc
    · intro hgood
      rw [detect_doc_snd]
      split_ifs with hif
      · exact file_append_ne _
      · rcases docFold_name doc with h | ⟨name, hmem, he⟩
        · rw [h]
          decide
        · rw [he]
          exact hgood name hmem
    · intro hnone
      have hfb : (docFold doc).2.1 = "file.bin" := by
        rcases docFold_name doc with h | ⟨name, hmem, _⟩
        · exact h
        · exact absurd hmem (hnone name)
      rw [detect_doc_snd]
      rcases docFold_ext doc with h | h | h | h
      · left
        rw [if_neg (fun hand => hand.2 h), hfb]
      · right
        rw [if_pos ⟨hfb, by rw [h]; decide⟩, h]
        decide
      · right
        rw [if_pos ⟨hfb, by rw [h]; decide⟩, h]
        decide
      · right
        rw [if_pos ⟨hfb, by rw [h]; decide⟩, h]
        decide

/-- C9 (amended, witness): the amended statement instantiated at a document
with a well-named filename attribute and no others. -/
theorem c9_amended_witness :
    kindOk (detect_media_type_and_name (some (.docM (some ⟨some "audio/ogg",
        [DocAttr.filenameAttr "tune.ogg"]⟩)))).1 ∧
      (detect_media_type_and_name (some (.docM (some ⟨some "audio/ogg",
        [DocAttr.filenameAttr "tune.ogg"]⟩)))).2 ≠ "" := by
  refine ⟨(c9_amended (some (.docM (some ⟨some "audio/ogg",
    [DocAttr.filenameAttr "tune.ogg"]⟩)))).1, ?_⟩
  apply (c9_amended (some (.docM (some ⟨some "audio/ogg",
    [DocAttr.filenameAttr "tune.ogg"]⟩)))).2.1
  intro name hmem
  simp [mediaAttrs] at hmem
  rw [hmem]
  decide

/-! Claim C3: the progress formulas. -/

/-- C3: for all inputs, the snapshot computed by `progress_callback` matches
the specified formulas: throughput is `bytesDone / elapsedSeconds` when
`elapsedSeconds > 0` else 0; percentComplete is `100 * bytesDone /
bytesTotal` when `bytesTotal > 0` else 0; etaSeconds is
`(bytesTotal - bytesDone) / throughput` when throughput is positive and
`bytesTotal > bytesDone`, else the unknown marker. -/
theorem c3_progress_formulas (d t e : ℚ) :
    (progress_callback d t e).speed = specThroughput d e ∧
      (progress_callback d t e).percent = specPercent d t ∧
      (progress_callback d t e).eta = specEta d t e := by
  refine ⟨rfl, ?_, rfl⟩
  show (if 0 < t then d / t * 100 else 0) = specPercent d t
  unfold specPercent
  split_ifs with h
  · ring
  · rfl

/-! Claim C7: bounds on the progress snapshot. -/

/-- C7: whenever `0 ≤ d ≤ t` and the elapsed time is non-negative, the
percentage computed by `progress_callback` lies in `[0, 100]`, and the ETA
is non-negative whenever it is defined. -/
theorem c7_progress_bounds (d t e : ℚ) (hd : 0 ≤ d) (hdt : d ≤ t) (he : 0 ≤ e) :
    0 ≤ (progress_callback d t e).percent ∧
      (progress_callback d t e).percent ≤ 100 ∧
      ∀ x, (progress_callback d t e).eta = some x → 0 ≤ x := by
  have hper : (progress_callback d t e).percent = if 0 < t then d / t * 100 else 0 := rfl
  have heta : (progress_callback d t e).eta =
      (if 0 < specThroughput d e ∧ d < t then
        some ((t - d) / specThroughput d e) else none) := rfl
  refine ⟨?_, ?_, ?_⟩
  · rw [hper]
    split_ifs with h
    · exact mul_nonneg (div_nonneg hd h.le) (by norm_num)
    · exact le_refl 0
  · rw [hper]
    split_ifs with h
    · have h1 : d / t ≤ 1 := (div_le_one h).mpr hdt
      calc d / t * 100 ≤ 1 * 100 := mul_le_mul_of_nonneg_right h1 (by norm_num)
        _ = 100 := one_mul 100
    · norm_num
  · intro x hx
    rw [heta] at hx
    split_ifs at hx with h
    · have hnn : 0 ≤ (t - d) / specThroughput d e :=
        div_nonneg (sub_nonneg.mpr h.2.le) h.1.le
      rw [Option.some_inj] at hx
      rw [← hx]
      exact hnn

/-- C7 (witness): the bounds at downloaded 1, total 2, elapsed 1. -/
theorem c7_progress_bounds_witness :
    0 ≤ (progress_callback 1 2 1).percent ∧
      (progress_callback 1 2 1).percent ≤ 100 ∧
      ∀ x, (progress_callback 1 2 1).eta = some x → 0 ≤ x :=
  c7_progress_bounds 1 2 1 (by norm_num) (by norm_num) (by norm_num)

/-! Claim C6: caption truncation. -/

/-- C6: a non-empty caption is sent as the caption field truncated to its
first 1024 characters; the sent caption never exceeds 1024 characters, and
it is exactly 1024 characters long whenever the original had at least 1024
(in particular for one of 2000). -/
theorem c6_caption_truncation (caption : List Char) (media_type : String)
    (h : caption ≠ []) :
    (upload_request caption media_type).caption = some (caption.take 1024) ∧
      (caption.take 1024).length ≤ 1024 ∧
      (1024 ≤ caption.length → (caption.take 1024).length = 1024) := by
  refine ⟨?_, ?_, ?_⟩
  · simp [upload_request, h]
  · rw [List.length_take]
    omega
  · intro hlen
    rw [List.length_take]
    omega

/-- C6 (witness): a 2000-character caption is sent as exactly its first 1024
characters. -/
theorem c6_caption_truncation_witness :
    (upload_request (List.replicate 2000 'a') "video").caption
        = some ((List.replicate 2000 'a').take 1024) ∧
      ((List.replicate 2000 'a').take 1024).length ≤ 1024 ∧
      (1024 ≤ (List.replicate 2000 'a').length →
        ((List.replicate 2000 'a').take 1024).length = 1024) :=
  c6_caption_truncation (List.replicate 2000 'a') "video"
    (List.length_pos.mp (by rw [List.length_replicate]; omega))

/-! Claim C8: the one-time-code step of the login state machine. -/

/-- C8: in the code-awaiting state, a submitted code with no truthy pending
phone or correlation token fails with the no-pending reply and resets
`awaiting` (the machine leaves the code-requested state); and whenever the
step leaves the machine still awaiting a code, the pending fields are the
original truthy ones and the reply is a typed sign-in failure. -/
theorem c8_submit_code (s : BotState) (res : SignInResult)
    (hcode : s.awaiting = some .codeA) :
    ((strTruthy s.phone = false ∨ strTruthy s.sent_code = false) →
      (submit_code_step s res).1.awaiting = none ∧
        (submit_code_step s res).2 = .noPending) ∧
    ((submit_code_step s res).1.awaiting = some .codeA →
      (submit_code_step s res).1.phone = s.phone ∧
        strTruthy (submit_code_step s res).1.phone = true ∧
        (submit_code_step s res).1.sent_code = s.sent_code ∧
        strTruthy (submit_code_step s res).1.sent_code = true ∧
        ∃ e, (submit_code_step s res).2 = .loginFailed e) := by
  unfold submit_code_step
  split_ifs with h
  · refine ⟨fun _ => ⟨rfl, rfl⟩, fun hc => absurd hc ?_⟩
    simp
  · have hp : strTruthy s.phone = true := by
      cases hph : strTruthy s.phone with
      | false => exact absurd (Or.inl hph) h
      | true => rfl
    have hq : strTruthy s.sent_code = true := by
      cases hsc : strTruthy s.sent_code with
      | false => exact absurd (Or.inr hsc) h
      | true => rfl
    refine ⟨fun habs => absurd habs h, ?_⟩
    intro hc
    cases res with
    | okSig => exact absurd hc (by simp)
    | password_needed => simp at hc
    | excSig e => exact ⟨rfl, hp, rfl, hq, e, rfl⟩

/-- C8 (witness): the invariant applied to a concrete state awaiting a code
with truthy pending fields, on a sign-in exception. -/
theorem c8_submit_code_witness :
    (submit_code_step ⟨some "+15550001111", some "hash", some .codeA, false⟩
          (.excSig "bad code")).1.phone = some "+15550001111" ∧
      strTruthy (submit_code_step ⟨some "+15550001111", some "hash", some .codeA, false⟩
          (.excSig "bad code")).1.phone = true ∧
      (submit_code_step ⟨some "+15550001111", some "hash", some .codeA, false⟩
          (.excSig "bad code")).1.sent_code = some "hash" ∧
      strTruthy (submit_code_step ⟨some "+15550001111", some "hash", some .codeA, false⟩
          (.excSig "bad code")).1.sent_code = true ∧
      ∃ e, (submit_code_step ⟨some "+15550001111", some "hash", some .codeA, false⟩
          (.excSig "bad code")).2 = .loginFailed e :=
  (c8_submit_code ⟨some "+15550001111", some "hash", some .codeA, false⟩
    (.excSig "bad code") rfl).2 (by decide)

/-! Claim C5: the size ceiling is a strict post-download check. -/

/-- C5: for a message with media, a completed download of exactly
`MAX_FILE_SIZE` bytes is accepted — the result is the staged media file,
still on disk — while one of `MAX_FILE_SIZE + 1` bytes fails with the
too-large error and the staged file is removed before the error is
returned. -/
theorem c5_size_ceiling (fs : FS) (m : TMsg) (mm : MsgMedia) (tempPath : String)
    (hmm : m.media = some mm) (hfresh : tempPath ∉ fs) :
    fetch_message_and_download fs (some m) tempPath (.success MAX_FILE_SIZE)
        = (.mediaFile tempPath MAX_FILE_SIZE (detect_media_type_and_name (some mm)).2
            (detect_media_type_and_name (some mm)).1 m.text, tempPath :: fs) ∧
      fetch_message_and_download fs (some m) tempPath (.success (MAX_FILE_SIZE + 1))
        = (.err (.tooLarge (MAX_FILE_SIZE + 1)), fs) ∧
      tempPath ∉ (fetch_message_and_download fs (some m) tempPath
        (.success (MAX_FILE_SIZE + 1))).2 := by
  have h1 : fetch_message_and_download fs (some m) tempPath (.success MAX_FILE_SIZE)
      = (if MAX_FILE_SIZE > MAX_FILE_SIZE then
          (.err (.tooLarge MAX_FILE_SIZE), (tempPath :: fs).erase tempPath)
        else (.mediaFile tempPath MAX_FILE_SIZE (detect_media_type_and_name (some mm)).2
          (detect_media_type_and_name (some mm)).1 m.text, tempPath :: fs)) := by
    simp only [fetch_message_and_download, hmm]
  have h2 : fetch_message_and_download fs (some m) tempPath (.success (MAX_FILE_SIZE + 1))
      = (if MAX_FILE_SIZE + 1 > MAX_FILE_SIZE then
          (.err (.tooLarge (MAX_FILE_SIZE + 1)), (tempPath :: fs).erase tempPath)
        else (.mediaFile tempPath (MAX_FILE_SIZE + 1) (detect_media_type_and_name (some mm)).2
          (detect_media_type_and_name (some mm)).1 m.text, tempPath :: fs)) := by
    simp only [fetch_message_and_download, hmm]
  rw [h1, h2, if_neg (lt_irrefl MAX_FILE_SIZE), if_pos (Nat.lt_succ_self MAX_FILE_SIZE),
    List.erase_cons_head]
  exact ⟨rfl, rfl, hfresh⟩

/-- C5 (witness): the ceiling check at a concrete message and path. -/
theorem c5_size_ceiling_witness :
    fetch_message_and_download [] (some ⟨some (.docM none), "hi"⟩) "/tmp/stage.bin"
        (.success MAX_FILE_SIZE)
        = (.mediaFile "/tmp/stage.bin" MAX_FILE_SIZE
            (detect_media_type_and_name (some (.docM none))).2
            (detect_media_type_and_name (some (.docM none))).1 "hi", ["/tmp/stage.bin"]) ∧
      fetch_message_and_download [] (some ⟨some (.docM none), "hi"⟩) "/tmp/stage.bin"
        (.success (MAX_FILE_SIZE + 1))
        = (.err (.tooLarge (MAX_FILE_SIZE + 1)), []) ∧
      "/tmp/stage.bin" ∉ (fetch_message_and_download [] (some ⟨some (.docM none), "hi"⟩)
        "/tmp/stage.bin" (.success (MAX_FILE_SIZE + 1))).2 :=
  c5_size_ceiling [] ⟨some (.docM none), "hi"⟩ (.docM none) "/tmp/stage.bin" rfl
    (by decide)

/-! Claim C1: staged-file cleanup across the exit paths. -/

/-- C1 (counterexample): the claim says the staged file never survives the
pipeline on any exit path; but when the download raises, the handler returns
after the error reply without deleting the staged temp file, which therefore
still exists afterwards. -/
theorem c1_counterexample :
    "/tmp/stage.bin" ∉ ([] : FS) ∧
      "/tmp/stage.bin" ∈ text_message_handler_transfer [] (some ⟨some (.docM none), "hi"⟩)
        "/tmp/stage.bin" (.exc "network down") .okResp := by
  decide

/-- C1 (amended): for a fresh staged path, the staged file is gone after the
handler returns on the completed-download paths (success within the ceiling,
size-ceiling failure, upload success or failure) and on the no-media and
message-not-found paths; but on a download failure (exception or missing
file) with media present, the staged file survives the handler. -/
theorem c1_amended (fs : FS) (msg : Option TMsg) (tempPath : String) (size : Nat)
    (ul : UploadOutcome) (hfresh : tempPath ∉ fs) :
    tempPath ∉ text_message_handler_transfer fs msg tempPath (.success size) ul ∧
      (msg = none → ∀ dl, tempPath ∉ text_message_handler_transfer fs msg tempPath dl ul) ∧
      (∀ m, msg = some m → m.media = none →
        ∀ dl, tempPath ∉ text_message_handler_transfer fs msg tempPath dl ul) ∧
      (∀ m mm, msg = some m → m.media = some mm → ∀ e,
        tempPath ∈ text_message_handler_transfer fs msg tempPath (.exc e) ul) ∧
      (∀ m mm, msg = some m → m.media = some mm →
        tempPath ∈ text_message_handler_transfer fs msg tempPath .missing ul) := by
  refine ⟨?_, ?_, ?_, ?_, ?_⟩
  · cases msg with
    | none => exact hfresh
    | some m =>
      cases hm : m.media with
      | none =>
        simp only [text_message_handler_transfer, fetch_message_and_download, hm]
        exact hfresh
      | some mm =>
        simp only [text_message_handler_transfer, fetch_message_and_download, hm]
        by_cases hsz : size > MAX_FILE_SIZE
        · rw [if_pos hsz, List.erase_cons_head]
          exact hfresh
        · rw [if_neg hsz]
          show tempPath ∉
            (if tempPath ∈ tempPath :: fs then (tempPath :: fs).erase tempPath
              else tempPath :: fs)
          rw [if_pos (List.mem_cons_self tempPath fs), List.erase_cons_head]
          exact hfresh
  · intro hnone dl
    subst hnone
    exact hfresh
  · intro m hsome hm dl
    subst hsome
    simp only [text_message_handler_transfer, fetch_message_and_download, hm]
    exact hfresh
  · intro m mm hsome hm e
    subst hsome
    simp only [text_message_handler_transfer, fetch_message_and_download, hm]
    exact List.mem_cons_self tempPath fs
  · intro m mm hsome hm
    subst hsome
    simp only [text_message_handler_transfer, fetch_message_and_download, hm]
    exact List.mem_cons_self tempPath fs

/-- C1 (amended, witness): cleanup on a successful transfer and survival on
a download exception, at concrete inputs. -/
theorem c1_amended_witness :
    "/tmp/stage.bin" ∉ text_message_handler_transfer [] (some ⟨some (.docM none), "hi"⟩)
        "/tmp/stage.bin" (.success 7) .okResp ∧
      "/tmp/stage.bin" ∈ text_message_handler_transfer [] (some ⟨some (.docM none), "hi"⟩)
        "/tmp/stage.bin" (.exc "boom") .okResp :=
  ⟨(c1_amended [] (some ⟨some (.docM none), "hi"⟩) "/tmp/stage.bin" 7 .okResp
      (by decide)).1,
    (c1_amended [] (some ⟨some (.docM none), "hi"⟩) "/tmp/stage.bin" 7 .okResp
      (by decide)).2.2.2.1 ⟨some (.docM none), "hi"⟩ (.docM none) rfl rfl "boom"⟩

/-! Helper lemmas for the link regex. -/

/-- Consuming a literal prefix succeeds exactly on lists that extend it. -/
theorem dropPre_eq_some {p : List Char} :
    ∀ {l r : List Char}, dropPre p l = some r → l = p ++ r := by
  induction p with
  | nil =>
    intro l r h
    simp only [dropPre, Option.some_inj] at h
    simp [h]
  | cons a ps ih =>
    intro l r h
    cases l with
    | nil => exact absurd h (by simp [dropPre])
    | cons c cs =>
      by_cases hc : c = a
      · subst hc
        simp only [dropPre, if_pos rfl] at h
        rw [List.cons_append, ih h]
      · simp only [dropPre, if_neg hc] at h
        exact Option.noConfusion h

/-- A position whose text lacks a colon cannot match the pattern, whose
literal head contains one. -/
theorem matchAt_no_colon {l : List Char} (h : ':' ∉ l) : matchAt l = none := by
  cases h1 : dropPre ['h', 't', 't', 'p'] l with
  | none => simp [matchAt, h1]
  | some l1 =>
    have hl : l = ['h', 't', 't', 'p'] ++ l1 := dropPre_eq_some h1
    cases h2 : dropPre ['s', ':', '/', '/', 't', '.', 'm', 'e', '/'] l1 with
    | some l2 =>
      exfalso
      apply h
      rw [hl, dropPre_eq_some h2]
      simp
    | none =>
      cases h3 : dropPre [':', '/', '/', 't', '.', 'm', 'e', '/'] l1 with
      | some l2 =>
        exfalso
        apply h
        rw [hl, dropPre_eq_some h3]
        simp
      | none => simp [matchAt, h1, h2, h3]

/-- A position whose head is not `h` cannot match the pattern. -/
theorem matchAt_head_ne {c : Char} (t : List Char) (h : c ≠ 'h') :
    matchAt (c :: t) = none := by
  simp [matchAt, dropPre, h]

/-- A failing position lets the search move on. -/
theorem reSearch_cons_none {c : Char} {t : List Char} (h : matchAt (c :: t) = none) :
    reSearch (c :: t) = reSearch t := by
  simp [reSearch, h]

/-- The search fails outright over colon-free text. -/
theorem reSearch_no_colon {l : List Char} (h : ':' ∉ l) : reSearch l = none := by
  induction l with
  | nil => rfl
  | cons c t ih =>
    rw [reSearch_cons_none (matchAt_no_colon h)]
    exact ih (fun hm => h (List.mem_cons_of_mem _ hm))

/-- A list of all-`none` candidates has no first hit. -/
theorem firstSome_eq_none {α : Type} :
    ∀ {l : List (Option α)}, (∀ o ∈ l, o = none) → firstSome l = none := by
  intro l
  induction l with
  | nil => intro _; rfl
  | cons o t ih =>
    intro h
    have ho := h o (List.mem_cons_self _ _)
    subst ho
    simp only [firstSome]
    exact ih (fun x hx => h x (List.mem_cons_of_mem _ hx))

/-- Membership in the candidate-length list of a greedy repetition. -/
theorem mem_descLens {n j : Nat} (h : j ∈ descLens n) : 1 ≤ j ∧ j ≤ n := by
  simp [descLens] at h
  obtain ⟨i, hi, rfl⟩ := h
  omega

/-- A greedy repetition fails when every candidate split fails. -/
theorem rep1_eq_none {α : Type} {p : Char → Bool} {l : List Char}
    {k : List Char → List Char → Option α}
    (h : ∀ j, 1 ≤ j → j ≤ (l.takeWhile p).length → k (l.take j) (l.drop j) = none) :
    rep1 p l k = none := by
  apply firstSome_eq_none
  intro o ho
  simp only [List.mem_map] at ho
  obtain ⟨j, hj, rfl⟩ := ho
  obtain ⟨h1, h2⟩ := mem_descLens hj
  exact h j h1 h2

/-- When some character of `u` falsifies `p`, the `p`-run of `u ++ rest`
stops strictly inside `u`. -/
theorem takeWhile_append_lt {p : Char → Bool} {u : List Char} (rest : List Char)
    (h : ∃ c ∈ u, p c = false) : ((u ++ rest).takeWhile p).length < u.length := by
  induction u with
  | nil => simp at h
  | cons a u ih =>
    by_cases hp : p a
    · have h2 : ∃ c ∈ u, p c = false := by
        obtain ⟨c, hc, hpc⟩ := h
        rcases List.mem_cons.mp hc with rfl | hc2
        · rw [hp] at hpc
          cases hpc
        · exact ⟨c, hc2, hpc⟩
      have h3 := ih h2
      rw [List.cons_append, List.takeWhile_cons, if_pos hp]
      simp only [List.length_cons]
      omega
    · rw [List.cons_append, List.takeWhile_cons,
        if_neg (by rw [Bool.not_eq_true] at hp ⊢; exact hp)]
      simp

/-- A user-name character is not a slash. -/
theorem isUserChar_ne_slash {c : Char} (h : isUserChar c = true) : c ≠ '/' := by
  intro he
  subst he
  exact absurd h (by decide)

/-- A user-name character is not a colon. -/
theorem isUserChar_ne_colon {c : Char} (h : isUserChar c = true) : c ≠ ':' := by
  intro he
  subst he
  exact absurd h (by decide)

/-- An ASCII letter is not an ASCII digit. -/
theorem isAlphaC_not_digC {c : Char} (h : isAlphaC c = true) : isDigC c = false := by
  simp only [isAlphaC, decide_eq_true_eq] at h
  simp only [isDigC, decide_eq_false_iff_not]
  omega

/-- A digit 1-8 is outside the `[A-Za-z0_9_]` class. -/
theorem isDigit18_not_class {c : Char} (h : isDigit18 c = true) : isClassChar c = false := by
  simp only [isDigit18, decide_eq_true_eq] at h
  simp only [isClassChar, isAlphaC, Bool.or_eq_false_iff, decide_eq_false_iff_not]
  omega

/-- Both branches of the alternation fail over `u ++ '/' :: d` whenever some
character of `u` falsifies the branch's class: the run stops inside `u`, so
no candidate split is followed by the required `/`. -/
theorem rep1_user_none {p : Char → Bool} {u : List Char} (d : List Char)
    (hu : ∀ c ∈ u, isUserChar c = true) (hw : ∃ c ∈ u, p c = false) :
    rep1 p (u ++ '/' :: d) altK = none := by
  have hlen : ((u ++ '/' :: d).takeWhile p).length < u.length :=
    takeWhile_append_lt ('/' :: d) hw
  apply rep1_eq_none
  intro j h1 h2
  have hj : j < u.length := lt_of_le_of_lt h2 hlen
  have hdrop : (u ++ '/' :: d).drop j = u.drop j ++ '/' :: d :=
    List.drop_append_of_le_length hj.le
  unfold altK
  rw [hdrop]
  cases h3 : u.drop j with
  | nil =>
    exfalso
    have h4 := congrArg List.length h3
    rw [List.length_drop] at h4
    simp at h4
    omega
  | cons c0 tl =>
    have hc0 : c0 ∈ u := by
      apply List.mem_of_mem_drop (n := j)
      rw [h3]
      exact List.mem_cons_self _ _
    have hslash : c0 ≠ '/' := isUserChar_ne_slash (hu c0 hc0)
    rw [List.cons_append]
    simp [altCont, hslash]

/-- The full alternation fails over a username mixing a letter (which kills
the digit branch) with a digit 1-8 (which kills the class branch). -/
theorem matchAlt_user_none {u : List Char} (d : List Char)
    (hu : ∀ c ∈ u, isUserChar c = true)
    (hl : ∃ c ∈ u, isAlphaC c = true)
    (h18 : ∃ c ∈ u, isDigit18 c = true) :
    matchAlt (u ++ '/' :: d) = none := by
  have h1 : rep1 isDigC (u ++ '/' :: d) altK = none := by
    apply rep1_user_none d hu
    obtain ⟨c, hc, hcA⟩ := hl
    exact ⟨c, hc, isAlphaC_not_digC hcA⟩
  have h2 : rep1 isClassChar (u ++ '/' :: d) altK = none := by
    apply rep1_user_none d hu
    obtain ⟨c, hc, hc18⟩ := h18
    exact ⟨c, hc, isDigit18_not_class hc18⟩
  simp [matchAlt, h1, h2]

/-- The whole group-1 body fails over such a username (the optional `c/`
cannot engage because the username has no slash and at least two
characters). -/
theorem matchBody_user_none {u : List Char} (d : List Char)
    (hu : ∀ c ∈ u, isUserChar c = true)
    (hl : ∃ c ∈ u, isAlphaC c = true)
    (h18 : ∃ c ∈ u, isDigit18 c = true) :
    matchBody (u ++ '/' :: d) = none := by
  have hAlt := matchAlt_user_none d hu hl h18
  cases u with
  | nil => simp at hl
  | cons a u1 =>
    cases u1 with
    | nil =>
      exfalso
      obtain ⟨c, hc, hcA⟩ := hl
      obtain ⟨c2, hc2, hc218⟩ := h18
      simp at hc hc2
      subst hc
      subst hc2
      simp only [isAlphaC, decide_eq_true_eq] at hcA
      simp only [isDigit18, decide_eq_true_eq] at hc218
      omega
    | cons b u2 =>
      have hb : b ≠ '/' := isUserChar_ne_slash (hu b (by simp))
      show matchBody (a :: b :: (u2 ++ '/' :: d)) = none
      simp only [matchBody]
      rw [if_neg (fun hand => hb hand.2)]
      show matchNoC ((a :: b :: u2) ++ '/' :: d) = none
      unfold matchNoC
      rw [hAlt]
      rfl

/-- The search over a link whose username mixes a letter with a digit 1-8
fails at every position: after the start, the positions inside the literal
head do not begin with `h`, the positions from the username on see
colon-free text, and at the start itself the group-1 body fails. -/
theorem reSearch_link_none {u d : List Char}
    (hu : ∀ c ∈ u, isUserChar c = true)
    (hl : ∃ c ∈ u, isAlphaC c = true)
    (h18 : ∃ c ∈ u, isDigit18 c = true)
    (hd : ∀ c ∈ d, isDigC c = true) :
    reSearch ('h' :: 't' :: 't' :: 'p' :: 's' :: ':' :: '/' :: '/' :: 't' :: '.' :: 'm'
      :: 'e' :: '/' :: (u ++ '/' :: d)) = none := by
  have hcolon : ':' ∉ (u ++ '/' :: d) := by
    intro hmem
    rcases List.mem_append.mp hmem with hmu | hmd
    · exact isUserChar_ne_colon (hu ':' hmu) rfl
    · rcases List.mem_cons.mp hmd with h1 | h1
      · exact absurd h1 (by decide)
      · exact absurd (hd ':' h1) (by decide)
  have hmain : matchAt ('h' :: 't' :: 't' :: 'p' :: 's' :: ':' :: '/' :: '/' :: 't' :: '.'
      :: 'm' :: 'e' :: '/' :: (u ++ '/' :: d)) = none := by
    have hstep : matchAt ('h' :: 't' :: 't' :: 'p' :: 's' :: ':' :: '/' :: '/' :: 't' :: '.'
        :: 'm' :: 'e' :: '/' :: (u ++ '/' :: d)) = matchBody (u ++ '/' :: d) := rfl
    rw [hstep]
    exact matchBody_user_none d hu hl h18
  rw [reSearch_cons_none hmain]
  rw [reSearch_cons_none (matchAt_head_ne _ (by decide))]
  rw [reSearch_cons_none (matchAt_head_ne _ (by decide))]
  rw [reSearch_cons_none (matchAt_head_ne _ (by decide))]
  rw [reSearch_cons_none (matchAt_head_ne _ (by decide))]
  rw [reSearch_cons_none (matchAt_head_ne _ (by decide))]
  rw [reSearch_cons_none (matchAt_head_ne _ (by decide))]
  rw [reSearch_cons_none (matchAt_head_ne _ (by decide))]
  rw [reSearch_cons_none (matchAt_head_ne _ (by decide))]
  rw [reSearch_cons_none (matchAt_head_ne _ (by decide))]
  rw [reSearch_cons_none (matchAt_head_ne _ (by decide))]
  rw [reSearch_cons_none (matchAt_head_ne _ (by decide))]
  rw [reSearch_cons_none (matchAt_head_ne _ (by decide))]
  exact reSearch_no_colon hcolon

/-! Claim C10: the username character class of the link regex. -/

/-- C10: the regex class `[A-Za-z0_9_]` admits only letters, underscore and
the digits 0 and 9, so every link `https://t.me/<username>/<id>` whose
username (made of letters, digits and underscores) mixes a letter with any
digit 1-8 is rejected as malformed by the link parser. -/
theorem c10_username_class (u d : List Char)
    (hu : ∀ c ∈ u, isUserChar c = true)
    (hl : ∃ c ∈ u, isAlphaC c = true)
    (h18 : ∃ c ∈ u, isDigit18 c = true)
    (hd : ∀ c ∈ d, isDigC c = true) :
    parseLink ("https://t.me/".toList ++ (u ++ '/' :: d)) = .noMatch := by
  have h := reSearch_link_none hu hl h18 hd
  show parseLink ('h' :: 't' :: 't' :: 'p' :: 's' :: ':' :: '/' :: '/' :: 't' :: '.' :: 'm'
    :: 'e' :: '/' :: (u ++ '/' :: d)) = .noMatch
  unfold parseLink
  rw [h]

/-- C10 (witness): the link `https://t.me/news24/5` is rejected. -/
theorem c10_username_class_witness :
    parseLink ("https://t.me/".toList ++ ("news24".toList ++ '/' :: "5".toList))
      = ParseOutcome.noMatch :=
  c10_username_class "news24".toList "5".toList (by decide) (by decide) (by decide)
    (by decide)

/-! Claim C4: resolution of the three reference links. -/

/-- C4: `https://t.me/c/123456789/42` resolves to the numeric chat id
`-100123456789` (the fixed `-100` channel marker prefixed to the digits)
with message id 42; `https://t.me/news/42` resolves to the reference
`@news` with message id 42; and `https://t.me/news`, having no message id,
is rejected before reaching the pipeline. -/
theorem c4_link_parsing :
    parseLink "https://t.me/c/123456789/42".toList
        = .parsed (Sum.inl (-100123456789)) 42 ∧
      parseLink "https://t.me/news/42".toList
        = .parsed (Sum.inr "@news".toList) 42 ∧
      parseLink "https://t.me/news".toList = .noMatch := by
  decide

end SaveBot
